import Mathlib

/-!
# Verification of the fintech_webapp market-data core

Shallow embedding, in Lean 4, of the market-data acquisition layer and the
technical-indicator engine of the `fintech_webapp` repository, together with
theorems settling the frozen claims about that code.

Conventions of the embedding:
* Python floats are modelled as exact rationals (`ℚ`); `round(x, 2)` is
  modelled by `round2` (round half up at two decimals — the claims proved
  here are insensitive to the tie rule, which for binary floats is
  half-to-even).
* `numpy.std` takes a square root, under which `ℚ` is not closed; the square
  root is therefore abstracted as an explicit function parameter `sqrtFn`
  applied to the (exactly computed) population variance.  No claim depends
  on the numeric value of a Bollinger band.
* Stateful code is modelled by explicit state passing: each method takes and
  returns its state, plus the current wall-clock time (`now : ℚ`, seconds)
  and calendar day (`today : ℤ`) where the source reads `time.time()` /
  `date.today()`.
* Upstream HTTP calls are modelled by an explicit outcome parameter
  describing what the wire call would yield (raising, provider error note,
  empty payload, or parsed data); the embedded function additionally returns
  the list of provider calls it performed, so that "provider X is (never)
  invoked" is a provable statement.
* JSON serialization in the cache is modelled as the identity: the cache
  stores the value itself.  No claim concerns the encoding.
-/

namespace FintechCore

/-- Python `l[-n:]` (the trailing `n` elements).  For `n = 0` Python's
`l[-0:]` is the whole list, hence the case split. -/
def lastN {α : Type} (n : ℕ) (l : List α) : List α :=
  if n = 0 then l else l.drop (l.length - n)

/-- `numpy.mean`: sum divided by length (of the actual slice). -/
def listMean (l : List ℚ) : ℚ :=
  l.sum / l.length

/-- Python `round(x, 2)` modelled over exact rationals (half-up tie rule;
see the file header). -/
def round2 (q : ℚ) : ℚ :=
  ((⌊q * 100 + 1/2⌋ : ℤ) : ℚ) / 100

/-- `numpy.diff`: successive differences, `d[i] = l[i+1] - l[i]`. -/
def pyDiff (l : List ℚ) : List ℚ :=
  List.zipWith (fun a b => a - b) l.tail l

/-! ## IndicatorEngine — `services/technical_analysis.py` -/

/-- One row of the OHLCV input of `calculate_all_indicators`.  Only the
fields the indicator engine reads (`close`, `high`, `low`) are modelled. -/
structure Bar where
  close : ℚ
  high : ℚ
  low : ℚ
deriving DecidableEq, Repr

/-- `TechnicalAnalysisService.calculate_sma`. -/
def calculate_sma (prices : List ℚ) (period : ℕ) : Option ℚ :=
  if prices.length < period then none
  else some (listMean (lastN period prices))

/-- Smoothing factor of `pandas.ewm(span=period, adjust=False)`:
`α = 2 / (period + 1)`. -/
def emaAlpha (period : ℕ) : ℚ :=
  2 / ((period : ℚ) + 1)

/-- The full series produced by `ewm(span, adjust=False).mean()`:
`y₀ = x₀`, `yₜ = (1-α)·yₜ₋₁ + α·xₜ`. -/
def ewmAux (a y : ℚ) : List ℚ → List ℚ
  | [] => [y]
  | x :: xs => y :: ewmAux a ((1 - a) * y + a * x) xs

/-- `ewm(span, adjust=False).mean()` over a whole series. -/
def ewmSeries (a : ℚ) : List ℚ → List ℚ
  | [] => []
  | x :: xs => ewmAux a x xs

/-- `TechnicalAnalysisService.calculate_ema` (`.iloc[-1]` of the smoothed
series). -/
def calculate_ema (prices : List ℚ) (period : ℕ) : Option ℚ :=
  if prices.length < period then none
  else
    match prices with
    | [] => none
    | x :: xs => some ((ewmAux (emaAlpha period) x xs).getLastD 0)

/-- Gains vector of `calculate_rsi`: `np.where(deltas > 0, deltas, 0)`. -/
def rsiGains (prices : List ℚ) : List ℚ :=
  (pyDiff prices).map (fun d => if 0 < d then d else 0)

/-- Losses vector of `calculate_rsi`: `np.where(deltas < 0, -deltas, 0)`. -/
def rsiLosses (prices : List ℚ) : List ℚ :=
  (pyDiff prices).map (fun d => if d < 0 then -d else 0)

/-- `avg_gain` of `calculate_rsi`: `np.mean(gains[-period:])`. -/
def rsiAvgGain (prices : List ℚ) (period : ℕ) : ℚ :=
  listMean (lastN period (rsiGains prices))

/-- `avg_loss` of `calculate_rsi`: `np.mean(losses[-period:])`. -/
def rsiAvgLoss (prices : List ℚ) (period : ℕ) : ℚ :=
  listMean (lastN period (rsiLosses prices))

/-- `TechnicalAnalysisService.calculate_rsi`. -/
def calculate_rsi (prices : List ℚ) (period : ℕ) : Option ℚ :=
  if prices.length < period + 1 then none
  else if rsiAvgLoss prices period = 0 then some 100
  else
    some (round2 (100 - 100 / (1 + rsiAvgGain prices period / rsiAvgLoss prices period)))

/-- Result dictionary of `calculate_macd`. -/
structure MACDResult where
  macd : ℚ
  signal : ℚ
  histogram : ℚ
deriving DecidableEq, Repr

/-- `TechnicalAnalysisService.calculate_macd`.  The series are nonempty in
the `some` branch (`slow_period ≤ length`), so the `getLastD 0` default is
never read. -/
def calculate_macd (prices : List ℚ) (fast_period slow_period signal_period : ℕ) :
    Option MACDResult :=
  if prices.length < slow_period then none
  else
    let ema_fast := ewmSeries (emaAlpha fast_period) prices
    let ema_slow := ewmSeries (emaAlpha slow_period) prices
    let macd_line := List.zipWith (fun a b => a - b) ema_fast ema_slow
    let signal_line := ewmSeries (emaAlpha signal_period) macd_line
    let histogram := List.zipWith (fun a b => a - b) macd_line signal_line
    some
      { macd := round2 (macd_line.getLastD 0)
        signal := round2 (signal_line.getLastD 0)
        histogram := round2 (histogram.getLastD 0) }

/-- Result dictionary of `calculate_bollinger_bands`: upper, middle, lower. -/
structure BollingerResult where
  upper : ℚ
  middle : ℚ
  lower : ℚ
deriving DecidableEq, Repr

/-- Population variance of the trailing window, the square of `np.std`. -/
def trailingVariance (prices : List ℚ) (period : ℕ) : ℚ :=
  let window := lastN period prices
  let m := listMean window
  listMean (window.map (fun x => (x - m) ^ 2))

/-- `TechnicalAnalysisService.calculate_bollinger_bands`; `sqrtFn` stands
for the square root inside `np.std` (see the file header). -/
def calculate_bollinger_bands (sqrtFn : ℚ → ℚ) (prices : List ℚ)
    (period : ℕ) (std_dev : ℚ) : Option BollingerResult :=
  if prices.length < period then none
  else
    let sma := listMean (lastN period prices)
    let std := sqrtFn (trailingVariance prices period)
    some
      { upper := round2 (sma + std_dev * std)
        middle := round2 sma
        lower := round2 (sma - std_dev * std) }

/-- True range of one bar given the previous close. -/
def trueRange (h l pc : ℚ) : ℚ :=
  max (h - l) (max |h - pc| |l - pc|)

/-- `TechnicalAnalysisService.calculate_atr`.  The Python loop indexes
`high[i]`, `low[i]`, `close[i-1]` for `i ∈ [1, len(close))`; with the
equal-length inputs produced by `calculate_all_indicators` this is the
`zipWith3` below. -/
def calculate_atr (high low close : List ℚ) (period : ℕ) : Option ℚ :=
  if high.length < period + 1 ∨ low.length < period + 1 ∨ close.length < period + 1 then
    none
  else
    let tr_list := List.zipWith3 trueRange high.tail low.tail close.dropLast
    if tr_list.length < period then none
    else some (round2 (listMean (lastN period tr_list)))

/-- `TechnicalAnalysisService.identify_trend`. -/
def identify_trend (prices : List ℚ) (sma_short sma_long : ℕ) : String :=
  if prices.length < sma_long then "NEUTRAL"
  else
    match calculate_sma prices sma_short, calculate_sma prices sma_long with
    | some s, some l =>
        if s > l * (102 / 100) then "BULLISH"
        else if s < l * (98 / 100) then "BEARISH"
        else "NEUTRAL"
    | _, _ => "NEUTRAL"

/-- A value of the result mapping of `calculate_all_indicators`: a number,
Python `None`, or the trend string. -/
inductive IndVal where
  | num : ℚ → IndVal
  | str : String → IndVal
  | null : IndVal
deriving DecidableEq, Repr

/-- Lift an optional number into the result mapping (`None` ↦ `null`). -/
def optVal : Option ℚ → IndVal
  | some q => .num q
  | none => .null

/-- `TechnicalAnalysisService.calculate_all_indicators`.  The Python dict is
modelled as an association list in insertion order; note that the MACD and
Bollinger blocks are appended only when their sub-result is truthy
(`if macd_data:` / `if bb_data:`). -/
def calculate_all_indicators (sqrtFn : ℚ → ℚ) (price_data : List Bar) :
    List (String × IndVal) :=
  if price_data = [] then []
  else
    let closes := price_data.map Bar.close
    let highs := price_data.map Bar.high
    let lows := price_data.map Bar.low
    let base :=
      [("sma_20", optVal (calculate_sma closes 20)),
       ("sma_50", optVal (calculate_sma closes 50)),
       ("sma_200", optVal (calculate_sma closes 200)),
       ("ema_12", optVal (calculate_ema closes 12)),
       ("ema_26", optVal (calculate_ema closes 26)),
       ("rsi_14", optVal (calculate_rsi closes 14))]
    let macdPart :=
      match calculate_macd closes 12 26 9 with
      | some m => [("macd", IndVal.num m.macd), ("signal", IndVal.num m.signal),
                   ("histogram", IndVal.num m.histogram)]
      | none => []
    let bbPart :=
      match calculate_bollinger_bands sqrtFn closes 20 2 with
      | some b => [("bb_upper", IndVal.num b.upper), ("bb_middle", IndVal.num b.middle),
                   ("bb_lower", IndVal.num b.lower)]
      | none => []
    base ++ macdPart ++ bbPart ++
      [("atr_14", optVal (calculate_atr highs lows closes 14)),
       ("trend", IndVal.str (identify_trend closes 20 50))]

/-! ## AlphaVantageRateLimiter — `services/alpha_vantage_limiter.py`

Fixed dual-window limiter: 5 calls per minute, 500 per day (both hardcoded
in the source).  Counters are Python ints, modelled as `ℤ`; `time.time()`
is `now : ℚ` and `date.today()` is `today : ℤ`.  Every public method runs
under `self.lock`, so each is one atomic step of the state machine. -/

/-- Mutable state of `AlphaVantageRateLimiter`. -/
structure AVState where
  minute_tokens : ℤ
  daily_calls : ℤ
  last_minute_reset : ℚ
  last_day_reset : ℤ
deriving DecidableEq, Repr

/-- `AlphaVantageRateLimiter.__init__` at time `t0` on day `d0`. -/
def avInit (t0 : ℚ) (d0 : ℤ) : AVState :=
  { minute_tokens := 5, daily_calls := 0, last_minute_reset := t0, last_day_reset := d0 }

/-- `AlphaVantageRateLimiter._reset_if_needed`. -/
def avResetIfNeeded (s : AVState) (now : ℚ) (today : ℤ) : AVState :=
  let s1 :=
    if 60 ≤ now - s.last_minute_reset then
      { s with minute_tokens := 5, last_minute_reset := now }
    else s
  if s1.last_day_reset < today then
    { s1 with daily_calls := 0, last_day_reset := today }
  else s1

/-- `AlphaVantageRateLimiter.acquire` (returns the flag and the new state). -/
def avAcquire (s : AVState) (now : ℚ) (today : ℤ) : Bool × AVState :=
  let s1 := avResetIfNeeded s now today
  if 0 < s1.minute_tokens ∧ s1.daily_calls < 500 then
    (true, { s1 with minute_tokens := s1.minute_tokens - 1, daily_calls := s1.daily_calls + 1 })
  else
    (false, s1)

/-- `AlphaVantageRateLimiter.can_make_request` (checks without consuming;
still mutates via the lazy reset). -/
def avCanMakeRequest (s : AVState) (now : ℚ) (today : ℤ) : Bool × AVState :=
  let s1 := avResetIfNeeded s now today
  (decide (0 < s1.minute_tokens ∧ s1.daily_calls < 500), s1)

/-- The dictionary returned by `AlphaVantageRateLimiter.get_stats`. -/
structure AVStats where
  minute_tokens_remaining : ℤ
  daily_calls_used : ℤ
  daily_calls_remaining : ℤ
  can_make_request : Bool
deriving DecidableEq, Repr

/-- `AlphaVantageRateLimiter.get_stats`. -/
def avGetStats (s : AVState) (now : ℚ) (today : ℤ) : AVStats × AVState :=
  let s1 := avResetIfNeeded s now today
  ({ minute_tokens_remaining := s1.minute_tokens
     daily_calls_used := s1.daily_calls
     daily_calls_remaining := 500 - s1.daily_calls
     can_make_request := decide (0 < s1.minute_tokens ∧ s1.daily_calls < 500) },
   s1)

/-- A sequence of `acquire()` calls, each tagged with its wall-clock time
and calendar day; returns the list of results and the final state. -/
def avRun (s : AVState) : List (ℚ × ℤ) → List Bool × AVState
  | [] => ([], s)
  | p :: rest =>
      let step := avAcquire s p.1 p.2
      let tail := avRun step.2 rest
      (step.1 :: tail.1, tail.2)

/-- State invariant of the dual-window limiter (claim C10). -/
def AVInv (s : AVState) : Prop :=
  0 ≤ s.minute_tokens ∧ s.minute_tokens ≤ 5 ∧ 0 ≤ s.daily_calls ∧ s.daily_calls ≤ 500

instance (s : AVState) : Decidable (AVInv s) := by
  unfold AVInv; infer_instance

/-! ## FinnhubRateLimiter — `services/finnhub_limiter.py`

Sliding-window limiter over a deque of call timestamps.  The source has no
lock: `can_make_call` evicts, reads the length, and appends as separate
operations on shared state.  `fhCanMakeCall` is the whole method as one
step (what a sequential caller observes); `fhCheck` / `fhAppend` are its
two phases as separate atomic memory operations, used to model what
interleaved concurrent callers can do in the absence of a lock. -/

/-- Mutable state of `FinnhubRateLimiter` (constructor parameter
`calls_per_minute` and `window_size = 60` included, as the source stores
them on `self`). -/
structure FHState where
  call_timestamps : List ℚ
  total_calls : ℕ
  blocked_calls : ℕ
  calls_per_minute : ℕ
  window_size : ℚ
deriving DecidableEq, Repr

/-- `FinnhubRateLimiter.__init__`. -/
def fhInit (calls_per_minute : ℕ) : FHState :=
  { call_timestamps := [], total_calls := 0, blocked_calls := 0
    calls_per_minute := calls_per_minute, window_size := 60 }

/-- The eviction loop: pop timestamps older than `now - window` from the
front of the deque. -/
def fhEvict (ts : List ℚ) (now window : ℚ) : List ℚ :=
  ts.dropWhile (fun t => t < now - window)

/-- `FinnhubRateLimiter.can_make_call` as one atomic step (sequential
execution). -/
def fhCanMakeCall (s : FHState) (now : ℚ) : Bool × FHState :=
  let ts := fhEvict s.call_timestamps now s.window_size
  if ts.length < s.calls_per_minute then
    (true, { s with call_timestamps := ts ++ [now], total_calls := s.total_calls + 1 })
  else
    (false, { s with call_timestamps := ts, blocked_calls := s.blocked_calls + 1 })

/-- First phase of `can_make_call` (evict + length check) as one atomic
memory operation on the shared deque. -/
def fhCheck (ts : List ℚ) (now : ℚ) (cap : ℕ) (window : ℚ) : List ℚ × Bool :=
  let ts1 := fhEvict ts now window
  (ts1, decide (ts1.length < cap))

/-- Second phase of `can_make_call` (the append) as one atomic memory
operation on the shared deque. -/
def fhAppend (ts : List ℚ) (now : ℚ) : List ℚ :=
  ts ++ [now]

/-! ## CacheService — `services/cache_service.py`

The Redis client is modelled as a record of operations each returning
`Except String α` (`.error` models the backend raising); `redis_client` is
`Option`al because a failing `__init__` leaves it `None`.  Serialization is
the identity (stored values are the serialized strings themselves). -/

/-- Behaviour of the underlying `redis` client.  Field names carry an `r`
prefix to avoid clashing with Lean keywords (`rexists` is Redis `EXISTS`,
returning a count). -/
structure RedisBackend where
  rget : String → Except String (Option String)
  rsetex : String → ℤ → String → Except String Unit
  rdel : List String → Except String ℤ
  rkeys : String → Except String (List String)
  rexists : String → Except String ℤ
  rttl : String → Except String ℤ

/-- `CacheService` instance state. -/
structure CacheService where
  redis_client : Option RedisBackend
  default_timeout : ℤ

/-- Python `timeout or self.default_timeout`: `None` and `0` are falsy and
fall back to the default; any other int is kept. -/
def effectiveTimeout : Option ℤ → ℤ → ℤ
  | none, d => d
  | some t, d => if t = 0 then d else t

/-- `CacheService.get`.  `if value:` means an empty (or absent) reply is a
miss; `json.loads` raising is caught by the same handler. -/
def cacheGet (svc : CacheService) (key : String) : Option String :=
  match svc.redis_client with
  | none => none
  | some c =>
      match c.rget key with
      | .error _ => none
      | .ok none => none
      | .ok (some v) => if v = "" then none else some v

/-- `CacheService.set` (`setex` with the effective timeout). -/
def cacheSet (svc : CacheService) (key : String) (value : String)
    (timeout : Option ℤ) : Bool :=
  match svc.redis_client with
  | none => false
  | some c =>
      match c.rsetex key (effectiveTimeout timeout svc.default_timeout) value with
      | .error _ => false
      | .ok _ => true

/-- `CacheService.delete`. -/
def cacheDelete (svc : CacheService) (key : String) : Bool :=
  match svc.redis_client with
  | none => false
  | some c =>
      match c.rdel [key] with
      | .error _ => false
      | .ok _ => true

/-- `CacheService.delete_pattern` (`KEYS pattern` then, if any, one
`DELETE *keys`). -/
def cacheDeletePattern (svc : CacheService) (pattern : String) : Bool :=
  match svc.redis_client with
  | none => false
  | some c =>
      match c.rkeys pattern with
      | .error _ => false
      | .ok ks =>
          if ks = [] then true
          else
            match c.rdel ks with
            | .error _ => false
            | .ok _ => true

/-- `CacheService.exists` (`bool(...)` of the Redis count). -/
def cacheExists (svc : CacheService) (key : String) : Bool :=
  match svc.redis_client with
  | none => false
  | some c =>
      match c.rexists key with
      | .error _ => false
      | .ok n => decide (n ≠ 0)

/-- `CacheService.get_ttl` (`ttl if ttl > 0 else None`). -/
def cacheGetTtl (svc : CacheService) (key : String) : Option ℤ :=
  match svc.redis_client with
  | none => none
  | some c =>
      match c.rttl key with
      | .error _ => none
      | .ok t => if 0 < t then some t else none

/-! ## Provider services and routes

For the fallback / staleness claims the cache backend is modelled as a live
in-memory map from key to stored value (its degradation on backend failure
is the subject of the `CacheService` model above; the TTL arguments play no
role in these claims and are dropped from the map).  The upstream HTTP call
is an explicit outcome parameter, and each function returns the list of
provider API calls it performed. -/

/-- Assoc-map read (`cache_service.get`). -/
def mapGet {α : Type} (m : List (String × α)) (k : String) : Option α :=
  m.lookup k

/-- Assoc-map write (`cache_service.set`): overwrite or prepend. -/
def mapSet {α : Type} (m : List (String × α)) (k : String) (v : α) :
    List (String × α) :=
  (k, v) :: m.filter (fun p => p.1 ≠ k)

/-- Tag of one upstream API call. -/
inductive ApiCall where
  | avApi
  | fhApi
deriving DecidableEq, Repr

/-- A quote dictionary; `stale : Bool` models the presence of the
`'stale': True` key (never present in a freshly parsed quote), `price`
stands for the rest of the payload, which no claim inspects. -/
structure StockQuote where
  price : ℚ
  stale : Bool
deriving DecidableEq, Repr

/-- Outcome of the Alpha Vantage `GLOBAL_QUOTE` wire call. -/
inductive AVQuoteOutcome where
  | raised
  | errorMessage
  | noteMsg
  | emptyQuote
  | quote : StockQuote → AVQuoteOutcome
deriving DecidableEq, Repr

/-- `AlphaVantageService.get_quote`.  Returns (result, cache, limiter,
API-call trace).  On the rate-limited path the stale entry is returned
unchanged — the source sets no `stale` flag there. -/
def avGetQuote (cache : List (String × StockQuote)) (lim : AVState)
    (now : ℚ) (today : ℤ) (api : AVQuoteOutcome) (symbol : String) :
    Option StockQuote × List (String × StockQuote) × AVState × List ApiCall :=
  match mapGet cache ("av:quote:" ++ symbol) with
  | some q => (some q, cache, lim, [])
  | none =>
      if (avAcquire lim now today).1 = false then
        (mapGet cache ("av:quote:" ++ symbol ++ ":stale"), cache,
          (avAcquire lim now today).2, [])
      else
        match api with
        | .raised =>
            (mapGet cache ("av:quote:" ++ symbol ++ ":stale"), cache,
              (avAcquire lim now today).2, [.avApi])
        | .errorMessage => (none, cache, (avAcquire lim now today).2, [.avApi])
        | .noteMsg => (none, cache, (avAcquire lim now today).2, [.avApi])
        | .emptyQuote => (none, cache, (avAcquire lim now today).2, [.avApi])
        | .quote q =>
            (some q,
              mapSet (mapSet cache ("av:quote:" ++ symbol) q)
                ("av:quote:" ++ symbol ++ ":stale") q,
              (avAcquire lim now today).2, [.avApi])

/-- One historical bar as the services cache it (only list emptiness and
identity matter to the claims; the payload is opaque). -/
structure HistBar where
  payload : ℚ
deriving DecidableEq, Repr

/-- Outcome of the Alpha Vantage `TIME_SERIES_DAILY` wire call.
`errorOrNote` is `'Error Message' in data or 'Note' in data`; `series []`
is an empty `Time Series (Daily)` payload. -/
inductive AVHistOutcome where
  | raised
  | errorOrNote
  | series : List HistBar → AVHistOutcome
deriving DecidableEq, Repr

/-- `AlphaVantageService.get_historical_data`.  Note the cache truthiness:
a cached empty list (`if cached:`) is a miss, and the success path writes
the cache only when `historical_data` is non-empty
(`if self.cache_service and historical_data:`). -/
def avGetHistorical (cache : List (String × List HistBar)) (lim : AVState)
    (now : ℚ) (today : ℤ) (api : AVHistOutcome) (symbol outputsize : String) :
    List HistBar × List (String × List HistBar) × AVState × List ApiCall :=
  let cache_key := "av:historical:" ++ symbol ++ ":" ++ outputsize
  let cached := (mapGet cache cache_key).getD []
  if cached ≠ [] then (cached, cache, lim, [])
  else
    let acq := avAcquire lim now today
    if acq.1 = false then
      ((mapGet cache (cache_key ++ ":stale")).getD [], cache, acq.2, [])
    else
      match api with
      | .raised => ([], cache, acq.2, [.avApi])
      | .errorOrNote => ([], cache, acq.2, [.avApi])
      | .series bars =>
          if bars = [] then ([], cache, acq.2, [.avApi])
          else
            let cache1 := mapSet cache cache_key bars
            let cache2 := mapSet cache1 (cache_key ++ ":stale") bars
            (bars, cache2, acq.2, [.avApi])

/-- Outcome of the Finnhub `/quote` wire call (`noPrice` is a falsy
`data['c']`). -/
inductive FHQuoteOutcome where
  | raised
  | noPrice
  | quote : StockQuote → FHQuoteOutcome
deriving DecidableEq, Repr

/-- `FinnhubService.get_quote`.  On the rate-limited (and on the raising)
path the stale entry, if any, is returned with `stale := true`
(`stale['stale'] = True`). -/
def fhGetQuote (cache : List (String × StockQuote)) (lim : FHState)
    (now : ℚ) (api : FHQuoteOutcome) (symbol : String) :
    Option StockQuote × List (String × StockQuote) × FHState × List ApiCall :=
  match mapGet cache ("finnhub:quote:" ++ symbol) with
  | some q => (some q, cache, lim, [])
  | none =>
      if (fhCanMakeCall lim now).1 = false then
        match mapGet cache ("finnhub:quote:" ++ symbol ++ ":stale") with
        | some s => (some { s with stale := true }, cache, (fhCanMakeCall lim now).2, [])
        | none => (none, cache, (fhCanMakeCall lim now).2, [])
      else
        match api with
        | .raised =>
            match mapGet cache ("finnhub:quote:" ++ symbol ++ ":stale") with
            | some s =>
                (some { s with stale := true }, cache, (fhCanMakeCall lim now).2, [.fhApi])
            | none => (none, cache, (fhCanMakeCall lim now).2, [.fhApi])
        | .noPrice => (none, cache, (fhCanMakeCall lim now).2, [.fhApi])
        | .quote q =>
            (some q,
              mapSet (mapSet cache ("finnhub:quote:" ++ symbol) q)
                ("finnhub:quote:" ++ symbol ++ ":stale") q,
              (fhCanMakeCall lim now).2, [.fhApi])

/-! ## Historical route — `api/stocks.py::get_historical_data`

The route consults the cache, then calls the single provider wired in
(`StockDataService.get_historical_data`, the yfinance client — the
"primary"); no other provider appears in the routine.  `Provider` lists
the providers the spec speaks about so that the absence of the secondary
is a provable statement. -/

/-- Providers named by the spec for the historical path. -/
inductive Provider where
  | primary
  | secondary
deriving DecidableEq, Repr

/-- HTTP-level result of the historical route. -/
inductive HistResp where
  | ok : List HistBar → HistResp
  | notFound
deriving DecidableEq, Repr

/-- `api/stocks.py::get_historical_data(symbol)` with the provider call
abstracted as its would-be result `primaryData`.  Python truthiness again:
a cached empty list is a miss, and an empty fetch result means 404 with no
cache write (`if not data: return ... 404` precedes `cache_service.set`). -/
def getHistoricalRoute (cache : List (String × List HistBar))
    (symbol period interval : String) (primaryData : List HistBar) :
    HistResp × List (String × List HistBar) × List Provider :=
  let cache_key := "historical:" ++ symbol ++ ":" ++ period ++ ":" ++ interval
  let cached := (mapGet cache cache_key).getD []
  if cached ≠ [] then (.ok cached, cache, [])
  else
    if primaryData = [] then (.notFound, cache, [.primary])
    else (.ok primaryData, mapSet cache cache_key primaryData, [.primary])

/-! ## Movers — `services/stock_data_service.py::get_top_gainers_losers`

The source is an acknowledged placeholder ("For demo purposes, returning
sample structure"): it ignores its arguments and returns empty lists. -/

/-- The `{'gainers': [...], 'losers': [...]}` result; entries are the
`change_percent` values the claims speak about. -/
structure Movers where
  gainers : List ℚ
  losers : List ℚ
deriving DecidableEq, Repr

/-- `StockDataService.get_top_gainers_losers`. -/
def get_top_gainers_losers (market : String) (limit : ℕ) : Movers :=
  { gainers := [], losers := [] }

/-! ## Claim C2 — movers computation -/

/-- C2: the claim says the movers computation sorts fetched quotes by
`change_percent` and slices top-N gainers / bottom-N losers (for
`[5, -3, 0, 2, -7]` with limit 2: gainers `[5, 2]`, losers `[-3, -7]`).
The source `get_top_gainers_losers` is an acknowledged placeholder ("For
demo purposes, returning sample structure") that ignores its inputs and
returns empty lists, so the `market='US', limit=2` call of the claim's
scenario yields no gainers and no losers whatever quotes are available. -/
theorem c2_movers_stub_returns_empty :
    get_top_gainers_losers "US" 2 = { gainers := [], losers := [] } := rfl

/-! ## Claim C9 — `CacheService.set` with a falsy timeout -/

/-- C9: for every key and value, `CacheService.set` called with timeout `0`
stores under the default timeout rather than a zero-second expiry: Python's
`timeout or self.default_timeout` treats `0` (like `None`) as falsy, so the
call is indistinguishable from one with no timeout argument. -/
theorem c9_set_timeout_zero_uses_default :
    ∀ (svc : CacheService) (key value : String),
      effectiveTimeout (some 0) svc.default_timeout = svc.default_timeout ∧
      effectiveTimeout none svc.default_timeout = svc.default_timeout ∧
      cacheSet svc key value (some 0) = cacheSet svc key value none := by
  intro svc key value
  refine ⟨by simp [effectiveTimeout], rfl, ?_⟩
  simp [cacheSet, effectiveTimeout]

/-! ## Claim C7 — cache degradation to no-op/miss -/

/-- C7: when the underlying store is unavailable — the client is `None`
(failed `__init__`) or the backend raises — every `CacheService` operation
degrades to a miss or `False` instead of raising: `get`/`get_ttl` return
absent, `set`/`delete`/`delete_pattern`/`exists` return `False`.  (That no
exception propagates is reflected by the operations being total functions
into plain result types.) -/
theorem c7_cache_unavailable_degrades :
    ∀ (d : ℤ) (key value pattern : String) (t : Option ℤ),
      (cacheGet ⟨none, d⟩ key = none ∧
        cacheSet ⟨none, d⟩ key value t = false ∧
        cacheDelete ⟨none, d⟩ key = false ∧
        cacheDeletePattern ⟨none, d⟩ pattern = false ∧
        cacheExists ⟨none, d⟩ key = false ∧
        cacheGetTtl ⟨none, d⟩ key = none) ∧
      ∀ (c : RedisBackend),
        (∀ e, c.rget key = .error e → cacheGet ⟨some c, d⟩ key = none) ∧
        (∀ e, c.rsetex key (effectiveTimeout t d) value = .error e →
          cacheSet ⟨some c, d⟩ key value t = false) ∧
        (∀ e, c.rdel [key] = .error e → cacheDelete ⟨some c, d⟩ key = false) ∧
        (∀ e, c.rkeys pattern = .error e →
          cacheDeletePattern ⟨some c, d⟩ pattern = false) ∧
        (∀ e ks, c.rkeys pattern = .ok ks → ks ≠ [] → c.rdel ks = .error e →
          cacheDeletePattern ⟨some c, d⟩ pattern = false) ∧
        (∀ e, c.rexists key = .error e → cacheExists ⟨some c, d⟩ key = false) ∧
        (∀ e, c.rttl key = .error e → cacheGetTtl ⟨some c, d⟩ key = none) := by
  intro d key value pattern t
  refine ⟨⟨rfl, rfl, rfl, rfl, rfl, rfl⟩, ?_⟩
  intro c
  refine ⟨?_, ?_, ?_, ?_, ?_, ?_, ?_⟩
  · intro e h; simp [cacheGet, h]
  · intro e h; simp [cacheSet, h]
  · intro e h; simp [cacheDelete, h]
  · intro e h; simp [cacheDeletePattern, h]
  · intro e ks hks hne h; simp [cacheDeletePattern, hks, hne, h]
  · intro e h; simp [cacheExists, h]
  · intro e h; simp [cacheGetTtl, h]

/-- A backend for which every operation raises (connection failure). -/
def errBackend : RedisBackend :=
  { rget := fun _ => .error "connection refused"
    rsetex := fun _ _ _ => .error "connection refused"
    rdel := fun _ => .error "connection refused"
    rkeys := fun _ => .error "connection refused"
    rexists := fun _ => .error "connection refused"
    rttl := fun _ => .error "connection refused" }

/-- Witness for C7: a concrete dead backend, concrete keys. -/
theorem c7_cache_unavailable_degrades_witness :
    cacheGet ⟨some errBackend, 300⟩ "quote:AAPL" = none ∧
    cacheSet ⟨some errBackend, 300⟩ "quote:AAPL" "v" (some 60) = false ∧
    cacheDeletePattern ⟨some errBackend, 300⟩ "quote:*" = false ∧
    cacheGet ⟨none, 300⟩ "quote:AAPL" = none := by
  have h := c7_cache_unavailable_degrades 300 "quote:AAPL" "v" "quote:*" (some 60)
  exact ⟨(h.2 errBackend).1 "connection refused" rfl,
         (h.2 errBackend).2.1 "connection refused" rfl,
         (h.2 errBackend).2.2.2.1 "connection refused" rfl,
         h.1.1⟩

/-! ## Claim C10 — AlphaVantage limiter state invariant -/

/-- The `_reset_if_needed` step preserves the counter bounds. -/
lemma avResetIfNeeded_inv (s : AVState) (now : ℚ) (today : ℤ) (h : AVInv s) :
    AVInv (avResetIfNeeded s now today) := by
  obtain ⟨h1, h2, h3, h4⟩ := h
  unfold AVInv avResetIfNeeded
  by_cases hm : 60 ≤ now - s.last_minute_reset <;>
    by_cases hdy : s.last_day_reset < today <;>
      simp [hm, hdy] <;> omega

/-- `acquire` preserves the counter bounds. -/
lemma avAcquire_inv (s : AVState) (now : ℚ) (today : ℤ) (h : AVInv s) :
    AVInv (avAcquire s now today).2 := by
  obtain ⟨ha, hb, hc, hd⟩ := avResetIfNeeded_inv s now today h
  unfold AVInv avAcquire
  by_cases hcond : 0 < (avResetIfNeeded s now today).minute_tokens ∧
      (avResetIfNeeded s now today).daily_calls < 500 <;>
    simp [hcond] <;> omega

/-- C10: every operation of `AlphaVantageRateLimiter` (`acquire`,
`can_make_request`, `get_stats`) preserves
`0 ≤ minute_tokens ≤ 5 ∧ 0 ≤ daily_calls ≤ 500` (holding initially),
so the reported `daily_calls_used` and `daily_calls_remaining` are
non-negative and sum to 500. -/
theorem c10_av_limiter_invariant :
    (∀ (t0 : ℚ) (d0 : ℤ), AVInv (avInit t0 d0)) ∧
    ∀ (s : AVState) (now : ℚ) (today : ℤ), AVInv s →
      AVInv (avAcquire s now today).2 ∧
      AVInv (avCanMakeRequest s now today).2 ∧
      AVInv (avGetStats s now today).2 ∧
      0 ≤ (avGetStats s now today).1.daily_calls_used ∧
      0 ≤ (avGetStats s now today).1.daily_calls_remaining ∧
      (avGetStats s now today).1.daily_calls_used +
        (avGetStats s now today).1.daily_calls_remaining = 500 := by
  constructor
  · intro t0 d0
    constructor <;> norm_num [avInit]
  · intro s now today h
    have h1 := avResetIfNeeded_inv s now today h
    obtain ⟨ha, hb, hc, hd⟩ := h1
    exact ⟨avAcquire_inv s now today h, ⟨ha, hb, hc, hd⟩, ⟨ha, hb, hc, hd⟩,
      hc, by simp only [avGetStats]; omega, by simp only [avGetStats]; omega⟩

/-- Witness for C10: the invariant and the stats identities at the initial
state. -/
theorem c10_av_limiter_invariant_witness :
    AVInv (avAcquire (avInit 0 0) 0 0).2 ∧
    (avGetStats (avInit 0 0) 0 0).1.daily_calls_used +
      (avGetStats (avInit 0 0) 0 0).1.daily_calls_remaining = 500 := by
  have h := c10_av_limiter_invariant.2 (avInit 0 0) 0 0
    (c10_av_limiter_invariant.1 0 0)
  exact ⟨h.1, h.2.2.2.2.2⟩

/-! ## Claim C5 — AlphaVantage limiter acquire contract -/

/-- Within the current minute window and calendar day, the lazy reset is
the identity. -/
lemma avResetIfNeeded_id (s : AVState) (now : ℚ) (today : ℤ)
    (h1 : now - s.last_minute_reset < 60) (h2 : today ≤ s.last_day_reset) :
    avResetIfNeeded s now today = s := by
  unfold avResetIfNeeded
  have hm : ¬ (60 ≤ now - s.last_minute_reset) := by linarith
  simp only [if_neg hm]
  rw [if_neg (by omega)]

/-- A run of `acquire()` calls, all inside the first minute window and on
the starting day: the i-th call succeeds exactly when `i < minute_tokens`,
provided the daily budget cannot bind (`daily_calls + minute_tokens ≤ 500`). -/
lemma avRun_window_spec :
    ∀ (times : List (ℚ × ℤ)) (mt dc : ℤ) (t0 : ℚ) (d0 : ℤ),
      (∀ p ∈ times, p.1 - t0 < 60 ∧ p.2 ≤ d0) →
      dc + mt ≤ 500 →
      (avRun ⟨mt, dc, t0, d0⟩ times).1 =
        (List.range times.length).map (fun n : ℕ => decide ((n : ℤ) < mt)) := by
  intro times
  induction times with
  | nil => intro mt dc t0 d0 _ _; rfl
  | cons p rest ih =>
      intro mt dc t0 d0 hwin hcap
      have hp := hwin p (List.mem_cons_self p rest)
      have hreset :
          avResetIfNeeded ⟨mt, dc, t0, d0⟩ p.1 p.2 = ⟨mt, dc, t0, d0⟩ :=
        avResetIfNeeded_id _ _ _ hp.1 hp.2
      have hrest : ∀ q ∈ rest, q.1 - t0 < 60 ∧ q.2 ≤ d0 :=
        fun q hq => hwin q (List.mem_cons_of_mem p hq)
      by_cases hmt : 0 < mt
      · have hdc : dc < 500 := by omega
        have hstep :
            avAcquire ⟨mt, dc, t0, d0⟩ p.1 p.2 =
              (true, ⟨mt - 1, dc + 1, t0, d0⟩) := by
          unfold avAcquire
          rw [hreset]
          rw [if_pos ⟨hmt, hdc⟩]
        have hhead : (avRun ⟨mt, dc, t0, d0⟩ (p :: rest)).1 =
            true :: (avRun ⟨mt - 1, dc + 1, t0, d0⟩ rest).1 := by
          simp [avRun, hstep]
        have htail := ih (mt - 1) (dc + 1) t0 d0 hrest (by omega)
        rw [hhead, htail, List.length_cons, List.range_succ_eq_map,
          List.map_cons, List.map_map]
        congr 1
        · simp [hmt]
        · apply List.map_congr_left
          intro n _
          simp only [Function.comp_apply]
          rw [decide_eq_decide]
          push_cast
          omega
      · have hstep :
            avAcquire ⟨mt, dc, t0, d0⟩ p.1 p.2 = (false, ⟨mt, dc, t0, d0⟩) := by
          unfold avAcquire
          rw [hreset]
          rw [if_neg (by rintro ⟨h, -⟩; exact hmt h)]
        have hhead : (avRun ⟨mt, dc, t0, d0⟩ (p :: rest)).1 =
            false :: (avRun ⟨mt, dc, t0, d0⟩ rest).1 := by
          simp [avRun, hstep]
        have htail := ih mt dc t0 d0 hrest hcap
        rw [hhead, htail, List.length_cons, List.range_succ_eq_map,
          List.map_cons, List.map_map]
        congr 1
        · simp [hmt]
        · apply List.map_congr_left
          intro n _
          simp only [Function.comp_apply]
          rw [decide_eq_decide]
          constructor
          · intro h; exact absurd (by omega : (0 : ℤ) < mt) hmt
          · intro h; exact absurd (by omega : (0 : ℤ) < mt) hmt

/-- C5: the fixed dual-window limiter.  (1) `acquire()` succeeds iff, after
the lazy reset, `minute_tokens > 0 ∧ daily_calls < 500`, and a success
decrements `minute_tokens` and increments `daily_calls`.  (2) From a fresh
state, for any sequence of `acquire()` calls within the first 60-second
window (same day), exactly the first 5 succeed and every later call fails.
(3) Once 60 seconds have elapsed since the last reset, the lazy reset
restores `minute_tokens` to the full per-minute cap 5. -/
theorem c5_av_acquire_contract :
    (∀ (s : AVState) (now : ℚ) (today : ℤ),
        ((avAcquire s now today).1 = true ↔
          0 < (avResetIfNeeded s now today).minute_tokens ∧
            (avResetIfNeeded s now today).daily_calls < 500) ∧
        ((avAcquire s now today).1 = true →
          (avAcquire s now today).2.minute_tokens =
              (avResetIfNeeded s now today).minute_tokens - 1 ∧
            (avAcquire s now today).2.daily_calls =
              (avResetIfNeeded s now today).daily_calls + 1)) ∧
    (∀ (t0 : ℚ) (d0 : ℤ) (times : List (ℚ × ℤ)),
        (∀ p ∈ times, p.1 - t0 < 60 ∧ p.2 ≤ d0) →
        (avRun (avInit t0 d0) times).1 =
          (List.range times.length).map (fun n : ℕ => decide ((n : ℤ) < 5))) ∧
    (∀ (s : AVState) (now : ℚ) (today : ℤ),
        60 ≤ now - s.last_minute_reset →
        (avResetIfNeeded s now today).minute_tokens = 5) := by
  refine ⟨?_, ?_, ?_⟩
  · intro s now today
    constructor
    · unfold avAcquire
      by_cases hcond : 0 < (avResetIfNeeded s now today).minute_tokens ∧
          (avResetIfNeeded s now today).daily_calls < 500 <;>
        simp [hcond]
    · unfold avAcquire
      by_cases hcond : 0 < (avResetIfNeeded s now today).minute_tokens ∧
          (avResetIfNeeded s now today).daily_calls < 500 <;>
        simp [hcond]
  · intro t0 d0 times hwin
    exact avRun_window_spec times 5 0 t0 d0 hwin (by omega)
  · intro s now today h
    unfold avResetIfNeeded
    rw [if_pos h]
    by_cases hdy : s.last_day_reset < today <;> simp [hdy]

/-- Witness for C5: six acquires in the first minute from a fresh limiter —
five successes, then a failure. -/
theorem c5_av_acquire_contract_witness :
    (avRun (avInit 0 0) [(0, 0), (10, 0), (20, 0), (30, 0), (40, 0), (50, 0)]).1 =
      (List.range 6).map (fun n : ℕ => decide ((n : ℤ) < 5)) :=
  c5_av_acquire_contract.2.1 0 0
    [(0, 0), (10, 0), (20, 0), (30, 0), (40, 0), (50, 0)]
    (by intro p hp; fin_cases hp <;> norm_num)

/-! ## Claim C8 — mutual exclusion around check-and-consume -/

/-- Successes in a run of atomic `acquire()` steps inside one minute window
never exceed the starting `minute_tokens`. -/
lemma avRun_count_le :
    ∀ (times : List (ℚ × ℤ)) (mt dc : ℤ) (t0 : ℚ) (d0 : ℤ),
      (∀ p ∈ times, p.1 - t0 < 60 ∧ p.2 ≤ d0) → 0 ≤ mt →
      ((avRun ⟨mt, dc, t0, d0⟩ times).1.count true : ℤ) ≤ mt := by
  intro times
  induction times with
  | nil => intro mt dc t0 d0 _ hmt; simpa [avRun] using hmt
  | cons p rest ih =>
      intro mt dc t0 d0 hwin hmt
      have hp := hwin p (List.mem_cons_self p rest)
      have hreset :
          avResetIfNeeded ⟨mt, dc, t0, d0⟩ p.1 p.2 = ⟨mt, dc, t0, d0⟩ :=
        avResetIfNeeded_id _ _ _ hp.1 hp.2
      have hrest : ∀ q ∈ rest, q.1 - t0 < 60 ∧ q.2 ≤ d0 :=
        fun q hq => hwin q (List.mem_cons_of_mem p hq)
      by_cases hcond : 0 < mt ∧ dc < 500
      · have hstep :
            avAcquire ⟨mt, dc, t0, d0⟩ p.1 p.2 =
              (true, ⟨mt - 1, dc + 1, t0, d0⟩) := by
          unfold avAcquire
          rw [hreset]
          rw [if_pos hcond]
        have hhead : (avRun ⟨mt, dc, t0, d0⟩ (p :: rest)).1 =
            true :: (avRun ⟨mt - 1, dc + 1, t0, d0⟩ rest).1 := by
          simp [avRun, hstep]
        have htail := ih (mt - 1) (dc + 1) t0 d0 hrest (by omega)
        rw [hhead]
        simp [List.count_cons]
        omega
      · have hstep :
            avAcquire ⟨mt, dc, t0, d0⟩ p.1 p.2 = (false, ⟨mt, dc, t0, d0⟩) := by
          unfold avAcquire
          rw [hreset]
          rw [if_neg hcond]
        have hhead : (avRun ⟨mt, dc, t0, d0⟩ (p :: rest)).1 =
            false :: (avRun ⟨mt, dc, t0, d0⟩ rest).1 := by
          simp [avRun, hstep]
        have htail := ih mt dc t0 d0 hrest hmt
        rw [hhead]
        simp [List.count_cons]
        omega

/-- C8, corrected.  (1) The AlphaVantage limiter holds `self.lock` around
check-and-consume, so a concurrent execution is a sequential interleaving
of atomic `acquire()` steps — and within one minute window (from any state
with at most the full 5 tokens) at most 5 of them succeed.  (2) The Finnhub
limiter has no lock: its length check and its append are separate
operations on the shared deque, and the interleaving in which two callers
(cap = 1) both run the check phase before either appends admits 2 calls in
the window — the cap is exceeded. -/
theorem c8_check_and_consume_mutual_exclusion :
    (∀ (s : AVState) (times : List (ℚ × ℤ)),
        (∀ p ∈ times, p.1 - s.last_minute_reset < 60 ∧ p.2 ≤ s.last_day_reset) →
        0 ≤ s.minute_tokens → s.minute_tokens ≤ 5 →
        ((avRun s times).1.count true : ℤ) ≤ 5) ∧
    ((fhCheck [] 0 1 60).2 = true ∧
      (fhCheck (fhCheck [] 0 1 60).1 0 1 60).2 = true ∧
      (fhEvict (fhAppend (fhAppend (fhCheck (fhCheck [] 0 1 60).1 0 1 60).1 0) 0)
          0 60).length = 2) := by
  constructor
  · intro s times hwin h0 h5
    obtain ⟨mt, dc, t0, d0⟩ := s
    exact le_trans (avRun_count_le times mt dc t0 d0 hwin h0) h5
  · refine ⟨?_, ?_, ?_⟩ <;> norm_num [fhCheck, fhEvict, fhAppend, List.dropWhile]

/-- C8 as stated is false: the claim asserts that for every set of
concurrent callers the allowed calls within a window never exceed the cap,
for both limiters.  For the lock-free Finnhub limiter, the concrete
two-caller interleaving below (cap = 1, both `can_make_call` check phases
before either append) admits both calls: 2 in-window calls against a cap
of 1. -/
theorem c8_counterexample :
    (fhCheck [] 0 1 60).2 = true ∧
    (fhCheck (fhCheck [] 0 1 60).1 0 1 60).2 = true ∧
    ¬ ((fhEvict (fhAppend (fhAppend (fhCheck (fhCheck [] 0 1 60).1 0 1 60).1 0) 0)
          0 60).length ≤ 1) := by
  refine ⟨?_, ?_, ?_⟩ <;> norm_num [fhCheck, fhEvict, fhAppend, List.dropWhile]

/-- Witness for C8 (corrected form): one acquire from a fresh limiter. -/
theorem c8_check_and_consume_witness :
    ((avRun (avInit 0 0) [(0, 0)]).1.count true : ℤ) ≤ 5 :=
  c8_check_and_consume_mutual_exclusion.1 (avInit 0 0) [(0, 0)]
    (by intro p hp; fin_cases hp <;> norm_num [avInit])
    (by norm_num [avInit]) (by norm_num [avInit])

/-! ## Claim C3 — historical fallback on empty primary result -/

/-- C3 as stated is false: at the concrete request below (cold cache,
primary provider returns an empty series) the claim requires the secondary
provider to be invoked, but the route's call trace is `[primary]` — no
secondary provider appears anywhere in the historical path.  (The rest of
the claim does hold there: the result is not-found/empty and the cache is
left unwritten.) -/
theorem c3_counterexample :
    Provider.secondary ∉ (getHistoricalRoute [] "AAPL" "1y" "1d" []).2.2 ∧
    (getHistoricalRoute [] "AAPL" "1y" "1d" []).1 = HistResp.notFound ∧
    (getHistoricalRoute [] "AAPL" "1y" "1d" []).2.1 = [] := by
  refine ⟨?_, rfl, rfl⟩
  intro h
  simp [getHistoricalRoute, mapGet] at h

/-- C3, corrected: when the cache misses (or holds an empty, hence falsy,
list) and the provider call returns an empty series, the route reports
not-found, writes no cache entry, and has called only the primary
provider; the secondary provider is never invoked on any input.  The
Alpha Vantage historical service behaves the same way: a fresh-cache miss
followed by an allowed call that yields an empty series returns `[]`,
writes nothing, and calls only its own API. -/
theorem c3_empty_primary_no_fallback :
    (∀ (cache : List (String × List HistBar)) (symbol period interval : String)
        (primaryData : List HistBar),
        ((mapGet cache
            ("historical:" ++ symbol ++ ":" ++ period ++ ":" ++ interval)).getD [] = [] →
          primaryData = [] →
          getHistoricalRoute cache symbol period interval primaryData =
            (.notFound, cache, [.primary])) ∧
        Provider.secondary ∉ (getHistoricalRoute cache symbol period interval primaryData).2.2) ∧
    (∀ (cache : List (String × List HistBar)) (lim : AVState) (now : ℚ) (today : ℤ)
        (symbol outputsize : String),
        (mapGet cache ("av:historical:" ++ symbol ++ ":" ++ outputsize)).getD [] = [] →
        (avAcquire lim now today).1 = true →
        avGetHistorical cache lim now today (.series []) symbol outputsize =
          ([], cache, (avAcquire lim now today).2, [.avApi])) := by
  constructor
  · intro cache symbol period interval primaryData
    constructor
    · intro hmiss hempty
      unfold getHistoricalRoute
      rw [if_neg (by simp [hmiss])]
      rw [if_pos hempty]
    · unfold getHistoricalRoute
      by_cases hhit : (mapGet cache
          ("historical:" ++ symbol ++ ":" ++ period ++ ":" ++ interval)).getD [] ≠ []
      · rw [if_pos hhit]; simp
      · rw [if_neg hhit]
        by_cases hempty : primaryData = []
        · rw [if_pos hempty]; simp
        · rw [if_neg hempty]; simp
  · intro cache lim now today symbol outputsize hmiss hallow
    unfold avGetHistorical
    rw [if_neg (by simp [hmiss])]
    rw [if_neg (by simp [hallow])]
    simp

/-- Witness for C3 (corrected form): the cold-cache, empty-series request. -/
theorem c3_empty_primary_no_fallback_witness :
    getHistoricalRoute [] "AAPL" "1y" "1d" [] = (.notFound, [], [.primary]) ∧
    avGetHistorical [] (avInit 0 0) 0 0 (.series []) "AAPL" "compact" =
      ([], [], (avAcquire (avInit 0 0) 0 0).2, [.avApi]) :=
  ⟨(c3_empty_primary_no_fallback.1 [] "AAPL" "1y" "1d" []).1 rfl rfl,
   c3_empty_primary_no_fallback.2 [] (avInit 0 0) 0 0 "AAPL" "compact" rfl
     (by norm_num [avAcquire, avResetIfNeeded, avInit])⟩

/-! ## Claim C4 — quote path: rate-limit denial and the stale flag -/

/-- C4 as stated is false: in the scenario below (fresh key misses, the
Alpha Vantage limiter denies, a stale entry exists) the claim requires the
returned stale quote to carry `stale = true`, but
`AlphaVantageService.get_quote` returns the cached entry unchanged — its
`stale` field is still `false`.  (Only the Finnhub service sets the flag.) -/
theorem c4_counterexample :
    (avGetQuote [("av:quote:AAPL:stale", { price := 10, stale := false })]
        ⟨0, 0, 0, 0⟩ 0 0 .raised "AAPL").1 =
      some { price := 10, stale := false } := by
  have hacq : avAcquire ⟨0, 0, 0, 0⟩ 0 0 = (false, ⟨0, 0, 0, 0⟩) := by
    norm_num [avAcquire, avResetIfNeeded]
  unfold avGetQuote
  rw [show mapGet [("av:quote:AAPL:stale", ({ price := 10, stale := false } : StockQuote))]
        ("av:quote:" ++ "AAPL") = none from rfl]
  rw [hacq]
  rfl

/-- C4, corrected: on a fresh-cache miss with the limiter denying, each
quote service falls back to its own provider-prefixed stale key and makes
no API call: Finnhub returns the stale entry with `stale := true` set,
while Alpha Vantage returns the stale entry unchanged (no stale flag); if
no stale entry exists the result is `none`.  Neither quote path ever calls
the other provider, on any input. -/
theorem c4_quote_stale_fallback :
    (∀ (cache : List (String × StockQuote)) (lim : AVState) (now : ℚ) (today : ℤ)
        (api : AVQuoteOutcome) (symbol : String),
        mapGet cache ("av:quote:" ++ symbol) = none →
        (avAcquire lim now today).1 = false →
        avGetQuote cache lim now today api symbol =
          (mapGet cache ("av:quote:" ++ symbol ++ ":stale"), cache,
            (avAcquire lim now today).2, [])) ∧
    (∀ (cache : List (String × StockQuote)) (lim : FHState) (now : ℚ)
        (api : FHQuoteOutcome) (symbol : String),
        mapGet cache ("finnhub:quote:" ++ symbol) = none →
        (fhCanMakeCall lim now).1 = false →
        fhGetQuote cache lim now api symbol =
          ((mapGet cache ("finnhub:quote:" ++ symbol ++ ":stale")).map
              (fun s => { s with stale := true }),
            cache, (fhCanMakeCall lim now).2, [])) ∧
    (∀ (cache : List (String × StockQuote)) (lim : AVState) (now : ℚ) (today : ℤ)
        (api : AVQuoteOutcome) (symbol : String),
        ApiCall.fhApi ∉ (avGetQuote cache lim now today api symbol).2.2.2) ∧
    (∀ (cache : List (String × StockQuote)) (lim : FHState) (now : ℚ)
        (api : FHQuoteOutcome) (symbol : String),
        ApiCall.avApi ∉ (fhGetQuote cache lim now api symbol).2.2.2) := by
  refine ⟨?_, ?_, ?_, ?_⟩
  · intro cache lim now today api symbol hmiss hdeny
    unfold avGetQuote
    rw [hmiss, hdeny]
    rfl
  · intro cache lim now api symbol hmiss hdeny
    unfold fhGetQuote
    rw [hmiss, hdeny]
    cases hs : mapGet cache ("finnhub:quote:" ++ symbol ++ ":stale") <;> rfl
  · intro cache lim now today api symbol
    unfold avGetQuote
    cases mapGet cache ("av:quote:" ++ symbol) with
    | some q => simp
    | none =>
        by_cases hb : (avAcquire lim now today).1 = false
        · rw [hb]; simp
        · rw [Bool.not_eq_false] at hb
          rw [hb]
          cases api <;> simp
  · intro cache lim now api symbol
    unfold fhGetQuote
    cases mapGet cache ("finnhub:quote:" ++ symbol) with
    | some q => simp
    | none =>
        by_cases hb : (fhCanMakeCall lim now).1 = false
        · rw [hb]
          cases mapGet cache ("finnhub:quote:" ++ symbol ++ ":stale") <;> simp
        · rw [Bool.not_eq_false] at hb
          rw [hb]
          cases api with
          | raised =>
              cases mapGet cache ("finnhub:quote:" ++ symbol ++ ":stale") <;> simp
          | noPrice => simp
          | quote q => simp

/-- Witness for C4 (corrected form): the denied-limiter scenario with a
stale entry present, for both providers. -/
theorem c4_quote_stale_fallback_witness :
    avGetQuote [("av:quote:AAPL:stale", ({ price := 10, stale := false } : StockQuote))]
        ⟨0, 0, 0, 0⟩ 0 0 .emptyQuote "AAPL" =
      (mapGet [("av:quote:AAPL:stale", ({ price := 10, stale := false } : StockQuote))]
          ("av:quote:" ++ "AAPL" ++ ":stale"),
        [("av:quote:AAPL:stale", ({ price := 10, stale := false } : StockQuote))],
        (avAcquire ⟨0, 0, 0, 0⟩ 0 0).2, []) ∧
    fhGetQuote [("finnhub:quote:AAPL:stale", ({ price := 10, stale := false } : StockQuote))]
        (fhInit 0) 0 .raised "AAPL" =
      ((mapGet [("finnhub:quote:AAPL:stale", ({ price := 10, stale := false } : StockQuote))]
            ("finnhub:quote:" ++ "AAPL" ++ ":stale")).map
          (fun s => { s with stale := true }),
        [("finnhub:quote:AAPL:stale", ({ price := 10, stale := false } : StockQuote))],
        (fhCanMakeCall (fhInit 0) 0).2, []) :=
  ⟨c4_quote_stale_fallback.1
      [("av:quote:AAPL:stale", ({ price := 10, stale := false } : StockQuote))]
      ⟨0, 0, 0, 0⟩ 0 0 .emptyQuote "AAPL" rfl
      (by norm_num [avAcquire, avResetIfNeeded]),
   c4_quote_stale_fallback.2.1
      [("finnhub:quote:AAPL:stale", ({ price := 10, stale := false } : StockQuote))]
      (fhInit 0) 0 .raised "AAPL" rfl
      (by norm_num [fhCanMakeCall, fhEvict, fhInit, List.dropWhile])⟩

/-! ## Claim C6 — RSI range, the 100 case, and the short-input case -/

/-- Elements of a trailing slice belong to the whole list. -/
lemma mem_of_mem_lastN {α : Type} {x : α} {n : ℕ} {l : List α}
    (h : x ∈ lastN n l) : x ∈ l := by
  unfold lastN at h
  split at h
  · exact h
  · exact List.mem_of_mem_drop h

/-- `lastN` commutes with `map`. -/
lemma lastN_map {α β : Type} (f : α → β) (l : List α) (n : ℕ) :
    lastN n (l.map f) = (lastN n l).map f := by
  unfold lastN
  by_cases h : n = 0
  · simp [h]
  · simp only [h, if_false, List.length_map]
    exact (List.map_drop ..).symm

/-- A list of non-negative rationals sums to zero iff every element is
zero. -/
lemma sum_eq_zero_iff_of_nonneg {l : List ℚ} (h : ∀ x ∈ l, 0 ≤ x) :
    l.sum = 0 ↔ ∀ x ∈ l, x = 0 := by
  induction l with
  | nil => simp
  | cons a t ih =>
      have ha : 0 ≤ a := h a (by simp)
      have ht : ∀ x ∈ t, 0 ≤ x := fun x hx => h x (by simp [hx])
      have hts : 0 ≤ t.sum := List.sum_nonneg ht
      constructor
      · intro hsum
        have hsum' : a + t.sum = 0 := by simpa using hsum
        intro x hx
        rcases List.mem_cons.mp hx with rfl | hx
        · linarith
        · exact (ih ht).mp (by linarith) x hx
      · intro hall
        have ha0 : a = 0 := hall a (by simp)
        have ht0 : t.sum = 0 := (ih ht).mpr fun x hx => hall x (by simp [hx])
        simp [ha0, ht0]

/-- `np.mean` vanishes iff the sum does (an empty list has both zero). -/
lemma listMean_eq_zero_iff (l : List ℚ) : listMean l = 0 ↔ l.sum = 0 := by
  unfold listMean
  constructor
  · intro h
    rcases div_eq_zero_iff.mp h with h1 | h1
    · exact h1
    · have hlen : l.length = 0 := by exact_mod_cast h1
      simp [List.length_eq_zero.mp hlen]
  · intro h
    rw [h, zero_div]

/-- `np.mean` of a list of non-negative values is non-negative. -/
lemma listMean_nonneg {l : List ℚ} (h : ∀ x ∈ l, 0 ≤ x) : 0 ≤ listMean l :=
  div_nonneg (List.sum_nonneg h) (by positivity)

/-- Every entry of the gains vector is non-negative. -/
lemma rsiGains_nonneg (prices : List ℚ) : ∀ x ∈ rsiGains prices, 0 ≤ x := by
  intro x hx
  obtain ⟨d, _, rfl⟩ := List.mem_map.mp hx
  by_cases hd : 0 < d
  · simp [hd]; linarith
  · simp [hd]

/-- Every entry of the losses vector is non-negative. -/
lemma rsiLosses_nonneg (prices : List ℚ) : ∀ x ∈ rsiLosses prices, 0 ≤ x := by
  intro x hx
  obtain ⟨d, _, rfl⟩ := List.mem_map.mp hx
  by_cases hd : d < 0
  · simp [hd]; linarith
  · simp [hd]

/-- `avg_gain ≥ 0`. -/
lemma rsiAvgGain_nonneg (prices : List ℚ) (period : ℕ) :
    0 ≤ rsiAvgGain prices period :=
  listMean_nonneg fun x hx => rsiGains_nonneg prices x (mem_of_mem_lastN hx)

/-- `avg_loss ≥ 0`. -/
lemma rsiAvgLoss_nonneg (prices : List ℚ) (period : ℕ) :
    0 ≤ rsiAvgLoss prices period :=
  listMean_nonneg fun x hx => rsiLosses_nonneg prices x (mem_of_mem_lastN hx)

/-- `avg_loss = 0` iff every one of the trailing `period` deltas is
non-negative. -/
lemma rsiAvgLoss_eq_zero_iff (prices : List ℚ) (period : ℕ) :
    rsiAvgLoss prices period = 0 ↔ ∀ d ∈ lastN period (pyDiff prices), 0 ≤ d := by
  unfold rsiAvgLoss rsiLosses
  rw [listMean_eq_zero_iff, lastN_map]
  rw [sum_eq_zero_iff_of_nonneg (by
    intro x hx
    obtain ⟨d, _, rfl⟩ := List.mem_map.mp hx
    by_cases hd : d < 0
    · simp [hd]; linarith
    · simp [hd])]
  constructor
  · intro h d hd
    have hz := h _ (List.mem_map_of_mem _ hd)
    by_cases hdneg : d < 0
    · rw [if_pos hdneg] at hz; linarith
    · linarith [not_lt.mp hdneg]
  · intro h x hx
    obtain ⟨d, hd, rfl⟩ := List.mem_map.mp hx
    rw [if_neg (not_lt.mpr (h d hd))]

/-- `round(·, 2)` of a non-negative value is non-negative. -/
lemma round2_nonneg {x : ℚ} (h : 0 ≤ x) : 0 ≤ round2 x := by
  unfold round2
  apply div_nonneg _ (by norm_num)
  have h2 : (0 : ℤ) ≤ ⌊x * 100 + 1/2⌋ := by
    apply Int.le_floor.mpr
    push_cast
    linarith
  exact_mod_cast h2

/-- `round(·, 2)` of a value below 100 stays at most 100. -/
lemma round2_le_100 {x : ℚ} (h : x < 100) : round2 x ≤ 100 := by
  unfold round2
  rw [div_le_iff (by norm_num : (0:ℚ) < 100)]
  have h2 : ⌊x * 100 + 1/2⌋ < 10001 := by
    apply Int.floor_lt.mpr
    push_cast
    linarith
  have h3 : ⌊x * 100 + 1/2⌋ ≤ 10000 := by omega
  calc ((⌊x * 100 + 1/2⌋ : ℤ) : ℚ) ≤ 10000 := by exact_mod_cast h3
    _ = 100 * 100 := by norm_num

/-- C6: for any positive period, `calculate_rsi` (i) returns `None` on
fewer than `period + 1` prices; (ii) `avg_loss = 0` exactly when all
trailing deltas are non-negative; and (iii) on sufficient data it returns
some value in `[0, 100]`, equal to exactly 100 when all trailing deltas
are non-negative and otherwise to
`round2 (100 − 100 / (1 + avg_gain / avg_loss))`. -/
theorem c6_rsi_contract :
    ∀ (prices : List ℚ) (period : ℕ), 0 < period →
      (prices.length < period + 1 → calculate_rsi prices period = none) ∧
      (rsiAvgLoss prices period = 0 ↔ ∀ d ∈ lastN period (pyDiff prices), 0 ≤ d) ∧
      (period + 1 ≤ prices.length →
        ∃ r, calculate_rsi prices period = some r ∧ 0 ≤ r ∧ r ≤ 100 ∧
          ((∀ d ∈ lastN period (pyDiff prices), 0 ≤ d) → r = 100) ∧
          (rsiAvgLoss prices period ≠ 0 →
            r = round2 (100 - 100 /
              (1 + rsiAvgGain prices period / rsiAvgLoss prices period)))) := by
  intro prices period hper
  refine ⟨?_, rsiAvgLoss_eq_zero_iff prices period, ?_⟩
  · intro h
    unfold calculate_rsi
    rw [if_pos h]
  · intro hlen
    have hnotlt : ¬ prices.length < period + 1 := by omega
    by_cases hzero : rsiAvgLoss prices period = 0
    · refine ⟨100, ?_, by norm_num, by norm_num, fun _ => rfl,
        fun hc => absurd hzero hc⟩
      unfold calculate_rsi
      rw [if_neg hnotlt, if_pos hzero]
    · have hLpos : 0 < rsiAvgLoss prices period :=
        lt_of_le_of_ne (rsiAvgLoss_nonneg prices period) (Ne.symm hzero)
      have hrsnn : 0 ≤ rsiAvgGain prices period / rsiAvgLoss prices period :=
        div_nonneg (rsiAvgGain_nonneg prices period) (le_of_lt hLpos)
      have hdenpos :
          (0:ℚ) < 1 + rsiAvgGain prices period / rsiAvgLoss prices period := by
        linarith
      have hfrac_pos :
          0 < 100 / (1 + rsiAvgGain prices period / rsiAvgLoss prices period) := by
        positivity
      have hfrac_le :
          100 / (1 + rsiAvgGain prices period / rsiAvgLoss prices period) ≤ 100 := by
        rw [div_le_iff hdenpos]
        nlinarith
      refine ⟨round2 (100 - 100 /
          (1 + rsiAvgGain prices period / rsiAvgLoss prices period)), ?_,
        round2_nonneg (by linarith), round2_le_100 (by linarith), ?_, fun _ => rfl⟩
      · unfold calculate_rsi
        rw [if_neg hnotlt, if_neg hzero]
      · intro hall
        exact absurd ((rsiAvgLoss_eq_zero_iff prices period).mpr hall) hzero

/-- Witness for C6: a strictly increasing 15-price series at period 14 —
all deltas positive, RSI exactly 100. -/
theorem c6_rsi_contract_witness :
    calculate_rsi [1, 2, 3, 4, 5, 6, 7, 8, 9, 10, 11, 12, 13, 14, 15] 14 =
      some 100 := by
  obtain ⟨r, hr, -, -, h100, -⟩ :=
    (c6_rsi_contract [1, 2, 3, 4, 5, 6, 7, 8, 9, 10, 11, 12, 13, 14, 15] 14
      (by norm_num)).2.2 (by norm_num)
  have hall : ∀ d ∈ lastN 14
      (pyDiff [1, 2, 3, 4, 5, 6, 7, 8, 9, 10, 11, 12, 13, 14, 15]), 0 ≤ d := by
    intro d hd
    have hd' := mem_of_mem_lastN hd
    norm_num [pyDiff, List.zipWith] at hd'
    norm_num [hd']
  rw [hr, h100 hall]

/-! ## Claim C1 — the composite indicator mapping -/

/-- `calculate_macd` is `None` exactly on series shorter than
`slow_period`. -/
lemma calculate_macd_none_iff (prices : List ℚ) (f s g : ℕ) :
    calculate_macd prices f s g = none ↔ prices.length < s := by
  unfold calculate_macd
  split_ifs with h <;> simp [h]

/-- `calculate_bollinger_bands` is `None` exactly on series shorter than
`period`. -/
lemma calculate_bollinger_none_iff (fn : ℚ → ℚ) (prices : List ℚ)
    (p : ℕ) (sd : ℚ) :
    calculate_bollinger_bands fn prices p sd = none ↔ prices.length < p := by
  unfold calculate_bollinger_bands
  split_ifs with h <;> simp [h]

/-- C1 as stated is false: for the non-empty one-bar series below, the
claim requires every indicator to appear in the result with value `null`
when uncomputable, but the MACD and Bollinger entries are omitted from the
mapping entirely (the `if macd_data:` / `if bb_data:` guards skip the dict
update, so the keys are absent, not null). -/
theorem c1_counterexample :
    (calculate_all_indicators (fun q => q)
        [{ close := 1, high := 1, low := 1 }]).lookup "macd" = none ∧
    (calculate_all_indicators (fun q => q)
        [{ close := 1, high := 1, low := 1 }]).lookup "bb_upper" = none := by
  constructor <;> rfl

/-- C1, corrected: for every non-empty price series the result mapping
always contains the `sma_20`/`sma_50`/`sma_200`/`ema_12`/`ema_26`/
`rsi_14`/`atr_14`/`trend` entries — with value `null` whenever the series
is too short (trend degrades to the string `NEUTRAL`) — but the
`macd`/`signal`/`histogram` entries are present iff the series has at
least 26 prices and the `bb_upper`/`bb_middle`/`bb_lower` entries iff it
has at least 20; on shorter input those keys are omitted from the mapping
rather than set to `null`. -/
theorem c1_indicator_mapping :
    ∀ (sqrtFn : ℚ → ℚ) (price_data : List Bar), price_data ≠ [] →
      (((calculate_all_indicators sqrtFn price_data).lookup "sma_20" ≠ none ∧
        (calculate_all_indicators sqrtFn price_data).lookup "sma_50" ≠ none ∧
        (calculate_all_indicators sqrtFn price_data).lookup "sma_200" ≠ none ∧
        (calculate_all_indicators sqrtFn price_data).lookup "ema_12" ≠ none ∧
        (calculate_all_indicators sqrtFn price_data).lookup "ema_26" ≠ none ∧
        (calculate_all_indicators sqrtFn price_data).lookup "rsi_14" ≠ none ∧
        (calculate_all_indicators sqrtFn price_data).lookup "atr_14" ≠ none ∧
        (calculate_all_indicators sqrtFn price_data).lookup "trend" ≠ none)) ∧
      (((calculate_all_indicators sqrtFn price_data).lookup "macd").isSome ↔
        26 ≤ price_data.length) ∧
      (((calculate_all_indicators sqrtFn price_data).lookup "signal").isSome ↔
        26 ≤ price_data.length) ∧
      (((calculate_all_indicators sqrtFn price_data).lookup "histogram").isSome ↔
        26 ≤ price_data.length) ∧
      (((calculate_all_indicators sqrtFn price_data).lookup "bb_upper").isSome ↔
        20 ≤ price_data.length) ∧
      (((calculate_all_indicators sqrtFn price_data).lookup "bb_middle").isSome ↔
        20 ≤ price_data.length) ∧
      (((calculate_all_indicators sqrtFn price_data).lookup "bb_lower").isSome ↔
        20 ≤ price_data.length) ∧
      (price_data.length < 20 →
        (calculate_all_indicators sqrtFn price_data).lookup "sma_20" =
          some .null) ∧
      (price_data.length < 12 →
        (calculate_all_indicators sqrtFn price_data).lookup "ema_12" =
          some .null) ∧
      (price_data.length < 15 →
        (calculate_all_indicators sqrtFn price_data).lookup "rsi_14" =
            some .null ∧
          (calculate_all_indicators sqrtFn price_data).lookup "atr_14" =
            some .null) ∧
      (price_data.length < 50 →
        (calculate_all_indicators sqrtFn price_data).lookup "trend" =
          some (.str "NEUTRAL")) := by
  intro sqrtFn price_data hne
  have hlen : (price_data.map Bar.close).length = price_data.length :=
    List.length_map _ _
  rcases hm : calculate_macd (price_data.map Bar.close) 12 26 9 with _ | m <;>
    rcases hb : calculate_bollinger_bands sqrtFn (price_data.map Bar.close) 20 2
      with _ | b
  · -- macd absent, bollinger absent: series shorter than 20
    have h26 : price_data.length < 26 := by
      have := (calculate_macd_none_iff _ 12 26 9).mp hm
      omega
    have h20 : price_data.length < 20 := by
      have := (calculate_bollinger_none_iff _ _ 20 2).mp hb
      omega
    simp only [calculate_all_indicators, if_neg hne, hm, hb,
      List.cons_append, List.nil_append]
    refine ⟨⟨?_, ?_, ?_, ?_, ?_, ?_, ?_, ?_⟩, ?_, ?_, ?_, ?_, ?_, ?_, ?_, ?_,
      ?_, ?_⟩ <;>
      simp [List.lookup, calculate_sma, calculate_rsi, calculate_atr,
        calculate_ema, identify_trend, List.length_map, optVal] <;>
      (try omega) <;>
      (intro h; first | omega | simp [h])
  · -- macd absent, bollinger present: 20 ≤ length < 26
    have h26 : price_data.length < 26 := by
      have := (calculate_macd_none_iff _ 12 26 9).mp hm
      omega
    have h20 : ¬ price_data.length < 20 := by
      intro hlt
      rw [(calculate_bollinger_none_iff sqrtFn _ 20 2).mpr (by omega)] at hb
      exact Option.noConfusion hb
    simp only [calculate_all_indicators, if_neg hne, hm, hb,
      List.cons_append, List.nil_append]
    refine ⟨⟨?_, ?_, ?_, ?_, ?_, ?_, ?_, ?_⟩, ?_, ?_, ?_, ?_, ?_, ?_, ?_, ?_,
      ?_, ?_⟩ <;>
      simp [List.lookup, calculate_sma, calculate_rsi, calculate_atr,
        calculate_ema, identify_trend, List.length_map, optVal] <;>
      (try omega) <;>
      (intro h; first | omega | simp [h])
  · -- macd present, bollinger absent: impossible (26 ≤ length < 20)
    have h26 : ¬ price_data.length < 26 := by
      intro hlt
      rw [(calculate_macd_none_iff _ 12 26 9).mpr (by omega)] at hm
      exact Option.noConfusion hm
    have h20 : price_data.length < 20 := by
      have := (calculate_bollinger_none_iff _ _ 20 2).mp hb
      omega
    exact absurd h20 (by omega)
  · -- macd present, bollinger present: length at least 26
    have h26 : ¬ price_data.length < 26 := by
      intro hlt
      rw [(calculate_macd_none_iff _ 12 26 9).mpr (by omega)] at hm
      exact Option.noConfusion hm
    have h20 : ¬ price_data.length < 20 := by
      intro hlt
      rw [(calculate_bollinger_none_iff sqrtFn _ 20 2).mpr (by omega)] at hb
      exact Option.noConfusion hb
    simp only [calculate_all_indicators, if_neg hne, hm, hb,
      List.cons_append, List.nil_append]
    refine ⟨⟨?_, ?_, ?_, ?_, ?_, ?_, ?_, ?_⟩, ?_, ?_, ?_, ?_, ?_, ?_, ?_, ?_,
      ?_, ?_⟩ <;>
      simp [List.lookup, calculate_sma, calculate_rsi, calculate_atr,
        calculate_ema, identify_trend, List.length_map, optVal] <;>
      (try omega) <;>
      (intro h; first | omega | simp [h])

/-- Witness for C1 (corrected form): the one-bar series — `trend` present,
`rsi_14` present with value `null`. -/
theorem c1_indicator_mapping_witness :
    (calculate_all_indicators (fun q => q)
        [{ close := 1, high := 1, low := 1 }]).lookup "trend" ≠ none ∧
    (calculate_all_indicators (fun q => q)
        [{ close := 1, high := 1, low := 1 }]).lookup "rsi_14" = some .null := by
  obtain ⟨hp, -, -, -, -, -, -, -, -, hra, -⟩ :=
    c1_indicator_mapping (fun q => q) [{ close := 1, high := 1, low := 1 }]
      (by simp)
  exact ⟨hp.2.2.2.2.2.2.2, (hra (by norm_num)).1⟩

end FintechCore
